import Mathlib

/-
Verification of the wakapi migration engine surface visible in the sources:
the two registered migration bodies (drop-rank-column, drop-diagnostics-user)
and the startup gate in main.go.  Pure Go closures become Lean functions over
an explicit database state; each execution additionally returns a trace of the
observable actions (ledger reads, introspector calls, DDL attempts, log lines,
ledger writes) so that ordering and absence-of-effect properties can be stated.
The engine helpers (hasRun, setHasRun, the registry and the Runner) are not in
the sources; they are modelled from the specification and marked as such.
-/

namespace Wakapi

/-- The two GORM entity structs referenced by the migration bodies:
models.LeaderboardItem and models.Diagnostics. -/
inductive Entity
  | leaderboardItem
  | diagnostics
deriving DecidableEq, Repr

/-- Live database schema state: which tables exist, which (entity, column)
pairs exist, which (entity, constraint) pairs exist. -/
structure Schema where
  tables : List Entity
  columns : List (Entity × String)
  constraints : List (Entity × String)
deriving DecidableEq, Repr

/-- Introspector predicate, mirrors gorm Migrator.HasTable. -/
def hasTable (s : Schema) (e : Entity) : Bool :=
  s.tables.contains e

/-- Introspector predicate, mirrors gorm Migrator.HasColumn. -/
def hasColumn (s : Schema) (e : Entity) (c : String) : Bool :=
  s.columns.contains (e, c)

/-- Introspector predicate, mirrors gorm Migrator.HasConstraint (present in
the Introspector interface of the spec, unused by both migration bodies). -/
def hasConstraint (s : Schema) (e : Entity) (c : String) : Bool :=
  s.constraints.contains (e, c)

/-- DDL operation, mirrors gorm Migrator.DropColumn: removes the column when
it exists, otherwise fails with an error and leaves the schema unchanged. -/
def dropColumn (s : Schema) (e : Entity) (c : String) : Except String Schema :=
  if s.columns.contains (e, c) then
    Except.ok { s with columns := s.columns.filter (fun p => p ≠ (e, c)) }
  else
    Except.error "no such column"

/-- DDL operation, mirrors gorm Migrator.DropConstraint: removes the
constraint when it exists, otherwise fails with an error and leaves the
schema unchanged. -/
def dropConstraint (s : Schema) (e : Entity) (c : String) : Except String Schema :=
  if s.constraints.contains (e, c) then
    Except.ok { s with constraints := s.constraints.filter (fun p => p ≠ (e, c)) }
  else
    Except.error "no such constraint"

/-- Database state seen by a migration body: the ledger of completed
migration names and the live schema. -/
structure DB where
  ledger : List String
  schema : Schema
deriving DecidableEq, Repr

/-- Modelled from the spec: the Ledger read hasRun / hasCompleted (its file is
not in the sources) — true iff a record with the given name exists. -/
def hasRun (name : String) (db : DB) : Bool :=
  db.ledger.contains name

/-- Modelled from the spec: the Ledger write setHasRun / markCompleted (its
file is not in the sources) — idempotently inserts a record for the name. -/
def setHasRun (name : String) (db : DB) : DB :=
  if db.ledger.contains name then db else { db with ledger := name :: db.ledger }

/-- Observable actions of a migration body, recorded in execution order. -/
inductive Event
  | hasRunCheck (name : String)
  | hasTableCheck (e : Entity)
  | hasColumnCheck (e : Entity) (c : String)
  | hasConstraintCheck (e : Entity) (c : String)
  | dropConstraintOp (e : Entity) (c : String)
  | dropColumnOp (e : Entity) (c : String)
  | logInfo (tag : String)
  | logWarn (tag : String)
  | setHasRunOp (name : String)
deriving DecidableEq, Repr

/-- Result of one migration body execution: the resulting database state, the
trace of observable actions, and the Go error return value (None = nil). -/
structure ExecResult where
  db : DB
  trace : List Event
  err : Option String
deriving Repr

def isMutationEvent : Event → Bool
  | Event.dropConstraintOp _ _ => true
  | Event.dropColumnOp _ _ => true
  | _ => false

def isWarnEvent : Event → Bool
  | Event.logWarn _ => true
  | _ => false

def isSetHasRunEvent : Event → Bool
  | Event.setHasRunOp _ => true
  | _ => false

def isIntrospectorEvent : Event → Bool
  | Event.hasTableCheck _ => true
  | Event.hasColumnCheck _ _ => true
  | Event.hasConstraintCheck _ _ => true
  | _ => false

def isConstraintCheckEvent : Event → Bool
  | Event.hasConstraintCheck _ _ => true
  | _ => false

/-- Modelled from the spec: the Result outcome taxonomy (Skipped, Applied,
AppliedWithWarnings, NoopGuardFalse); the Go bodies return only a nil error,
so the outcome is derived from the observable trace. -/
inductive Outcome
  | skipped
  | applied
  | appliedWithWarnings
  | noopGuardFalse
deriving DecidableEq, Repr

/-- Modelled from the spec: classify an execution by its trace — a mutation
attempt makes it Applied (with warnings when a warning was logged), otherwise
a ledger write without mutation is NoopGuardFalse, and an execution that only
read the ledger is Skipped. -/
def outcome (r : ExecResult) : Outcome :=
  if r.trace.any isMutationEvent then
    if r.trace.any isWarnEvent then Outcome.appliedWithWarnings
    else Outcome.applied
  else if r.trace.any isSetHasRunEvent then Outcome.noopGuardFalse
  else Outcome.skipped

def dropRankColumnName : String := "20221016-drop_rank_column"

/-- Body of the 20221016-drop_rank_column migration, translated from the Go
closure: early return on hasRun; guard HasTable(LeaderboardItem) short-circuit
AND HasColumn(LeaderboardItem, rank); on guard true log info and attempt
DropColumn, absorbing failure as a warning; unconditionally setHasRun and
return nil. -/
def dropRankColumnF (db : DB) : ExecResult :=
  if hasRun dropRankColumnName db then
    ⟨db, [Event.hasRunCheck dropRankColumnName], none⟩
  else if hasTable db.schema Entity.leaderboardItem then
    if hasColumn db.schema Entity.leaderboardItem "rank" then
      match dropColumn db.schema Entity.leaderboardItem "rank" with
      | Except.ok s =>
          ⟨setHasRun dropRankColumnName { db with schema := s },
           [Event.hasRunCheck dropRankColumnName,
            Event.hasTableCheck Entity.leaderboardItem,
            Event.hasColumnCheck Entity.leaderboardItem "rank",
            Event.logInfo "running migration",
            Event.dropColumnOp Entity.leaderboardItem "rank",
            Event.setHasRunOp dropRankColumnName], none⟩
      | Except.error _ =>
          ⟨setHasRun dropRankColumnName db,
           [Event.hasRunCheck dropRankColumnName,
            Event.hasTableCheck Entity.leaderboardItem,
            Event.hasColumnCheck Entity.leaderboardItem "rank",
            Event.logInfo "running migration",
            Event.dropColumnOp Entity.leaderboardItem "rank",
            Event.logWarn "failed to drop rank column",
            Event.setHasRunOp dropRankColumnName], none⟩
    else
      ⟨setHasRun dropRankColumnName db,
       [Event.hasRunCheck dropRankColumnName,
        Event.hasTableCheck Entity.leaderboardItem,
        Event.hasColumnCheck Entity.leaderboardItem "rank",
        Event.setHasRunOp dropRankColumnName], none⟩
  else
    ⟨setHasRun dropRankColumnName db,
     [Event.hasRunCheck dropRankColumnName,
      Event.hasTableCheck Entity.leaderboardItem,
      Event.setHasRunOp dropRankColumnName], none⟩

def dropDiagnosticsUserName : String := "202203191-drop_diagnostics_user"

/-- Body of the 202203191-drop_diagnostics_user migration, translated from the
Go closure: early return on hasRun; guard HasColumn(Diagnostics, user_id); on
guard true log info, attempt DropConstraint(fk_diagnostics_user) absorbing
failure as a warning, then attempt DropColumn(user_id) absorbing failure as a
warning; unconditionally setHasRun and return nil. -/
def dropDiagnosticsUserF (db : DB) : ExecResult :=
  if hasRun dropDiagnosticsUserName db then
    ⟨db, [Event.hasRunCheck dropDiagnosticsUserName], none⟩
  else if hasColumn db.schema Entity.diagnostics "user_id" then
    let step1 : Schema × List Event :=
      match dropConstraint db.schema Entity.diagnostics "fk_diagnostics_user" with
      | Except.ok s => (s, [])
      | Except.error _ =>
          (db.schema, [Event.logWarn "failed to drop fk_diagnostics_user constraint"])
    let step2 : Schema × List Event :=
      match dropColumn step1.1 Entity.diagnostics "user_id" with
      | Except.ok s => (s, [])
      | Except.error _ =>
          (step1.1, [Event.logWarn "failed to drop user_id column of diagnostics"])
    ⟨setHasRun dropDiagnosticsUserName { db with schema := step2.1 },
     [Event.hasRunCheck dropDiagnosticsUserName,
      Event.hasColumnCheck Entity.diagnostics "user_id",
      Event.logInfo "running migration"] ++
     (Event.dropConstraintOp Entity.diagnostics "fk_diagnostics_user" :: step1.2) ++
     (Event.dropColumnOp Entity.diagnostics "user_id" :: step2.2) ++
     [Event.setHasRunOp dropDiagnosticsUserName], none⟩
  else
    ⟨setHasRun dropDiagnosticsUserName db,
     [Event.hasRunCheck dropDiagnosticsUserName,
      Event.hasColumnCheck Entity.diagnostics "user_id",
      Event.setHasRunOp dropDiagnosticsUserName], none⟩

/-- The migrationFunc struct from the migrations package: a name paired with
the body closure. -/
structure migrationFunc where
  name : String
  f : DB → ExecResult

def dropRankColumnMigration : migrationFunc :=
  ⟨dropRankColumnName, dropRankColumnF⟩

def dropDiagnosticsUserMigration : migrationFunc :=
  ⟨dropDiagnosticsUserName, dropDiagnosticsUserF⟩

/-- Modelled from the spec: the pre-phase list of the Registry (the registry
file is not in the sources).  Neither source file calls registerPreMigration,
so the list is empty. -/
def preMigrations : List migrationFunc := []

/-- Modelled from the spec: the post-phase list of the Registry (the registry
file is not in the sources).  Both source files call registerPostMigration in
their init functions; the relative order comes from the sortable name
convention of the spec (lexicographic). -/
def postMigrations : List migrationFunc :=
  [dropDiagnosticsUserMigration, dropRankColumnMigration]

/-- Observable actions of a whole Runner pass: a migration body action tagged
with the migration name, or the single external additive schema-sync step. -/
inductive RunEvent
  | migStep (name : String) (e : Event)
  | syncSchemaStep
deriving DecidableEq, Repr

/-- Modelled from the spec: execute each descriptor of one phase in order,
threading the database state and concatenating the tagged traces. -/
def runPhase (migs : List migrationFunc) (db : DB) : DB × List RunEvent :=
  match migs with
  | [] => (db, [])
  | m :: rest =>
      let r := m.f db
      let rec_ := runPhase rest r.db
      (rec_.1, r.trace.map (RunEvent.migStep m.name) ++ rec_.2)

/-- Modelled from the spec: the Runner run — pre-phase list in order, then
the external additive schema-sync exactly once, then the post-phase list in
order; never returns an error.  The additive sync is an external collaborator
and is passed in as a schema transformer. -/
def runMigrations (sync : Schema → Schema) (db : DB) : DB × List RunEvent :=
  let pre := runPhase preMigrations db
  let synced : DB := { pre.1 with schema := sync pre.1.schema }
  let post := runPhase postMigrations synced
  (post.1, pre.2 ++ [RunEvent.syncSchemaStep] ++ post.2)

/-- The configuration surface consumed by the startup gate in main.go. -/
structure Config where
  skipMigrations : Bool

/-- The migration step of main.go: run migrations iff SkipMigrations is
false (main.go lines 166-169). -/
def mainMigrationStep (cfg : Config) (sync : Schema → Schema) (db : DB) :
    DB × List RunEvent :=
  if !cfg.skipMigrations then runMigrations sync db else (db, [])

def runEventIsMutation : RunEvent → Bool
  | RunEvent.migStep _ e => isMutationEvent e
  | RunEvent.syncSchemaStep => false

/-- A legacy database state: old schema with the rank column, the user_id
column and the foreign-key constraint present, empty ledger. -/
def legacyDB : DB :=
  ⟨[],
   ⟨[Entity.leaderboardItem, Entity.diagnostics],
    [(Entity.leaderboardItem, "rank"), (Entity.diagnostics, "user_id")],
    [(Entity.diagnostics, "fk_diagnostics_user")]⟩⟩

/-- A fresh database state: schema built from current entity definitions
(no rank column, no user_id column, no constraint), empty ledger. -/
def freshDB : DB :=
  ⟨[], ⟨[Entity.leaderboardItem, Entity.diagnostics], [], []⟩⟩

/-- A database state whose ledger already records both migrations. -/
def completedDB : DB :=
  ⟨[dropRankColumnName, dropDiagnosticsUserName],
   ⟨[Entity.leaderboardItem, Entity.diagnostics],
    [(Entity.leaderboardItem, "rank"), (Entity.diagnostics, "user_id")],
    [(Entity.diagnostics, "fk_diagnostics_user")]⟩⟩

/-- A database state with the user_id column present on diagnostics but the
fk_diagnostics_user constraint already removed, empty ledger. -/
def noConstraintDB : DB :=
  ⟨[],
   ⟨[Entity.leaderboardItem, Entity.diagnostics],
    [(Entity.diagnostics, "user_id")], []⟩⟩

/-- A database state in which the leaderboard-item table does not exist,
empty ledger. -/
def noTableDB : DB :=
  ⟨[], ⟨[Entity.diagnostics], [], []⟩⟩

theorem hasRun_setHasRun_self (name : String) (db : DB) :
    hasRun name (setHasRun name db) = true := by
  unfold hasRun setHasRun
  by_cases h : name ∈ db.ledger <;> simp [h]

theorem setHasRun_ledger_other (name other : String) (db : DB)
    (hne : other ≠ name) :
    hasRun other (setHasRun name db) = hasRun other db := by
  unfold hasRun setHasRun
  by_cases h : name ∈ db.ledger <;> simp [h, hne]

theorem setHasRun_schema (name : String) (db : DB) :
    (setHasRun name db).schema = db.schema := by
  unfold setHasRun
  by_cases h : name ∈ db.ledger <;> simp [h]

theorem dropRankColumnF_marks (db : DB) :
    hasRun dropRankColumnName (dropRankColumnF db).db = true := by
  unfold dropRankColumnF
  by_cases h1 : hasRun dropRankColumnName db = true
  · simp [h1]
  · simp only [Bool.not_eq_true] at h1
    by_cases h2 : hasTable db.schema Entity.leaderboardItem = true
    · by_cases h3 : hasColumn db.schema Entity.leaderboardItem "rank" = true
      · rcases hd : dropColumn db.schema Entity.leaderboardItem "rank" with s | e <;>
          simp [h1, h2, h3, hd, hasRun_setHasRun_self]
      · simp [h1, h2, h3, hasRun_setHasRun_self]
    · simp [h1, h2, hasRun_setHasRun_self]

theorem dropDiagnosticsUserF_marks (db : DB) :
    hasRun dropDiagnosticsUserName (dropDiagnosticsUserF db).db = true := by
  unfold dropDiagnosticsUserF
  by_cases h1 : hasRun dropDiagnosticsUserName db = true
  · simp [h1]
  · by_cases h2 : hasColumn db.schema Entity.diagnostics "user_id" = true
    · simp [h1, h2, hasRun_setHasRun_self]
    · simp [h1, h2, hasRun_setHasRun_self]

/-- C1: when the ledger already records the migration name, execute returns
immediately with the Skipped outcome, performing no introspector call and no
schema mutation and leaving the database unchanged; consequently a second
call to execute right after a first one returns Skipped. -/
theorem execute_skipped_when_completed (db : DB) :
    (hasRun dropRankColumnName db = true →
      dropRankColumnF db = ⟨db, [Event.hasRunCheck dropRankColumnName], none⟩ ∧
      outcome (dropRankColumnF db) = Outcome.skipped) ∧
    (hasRun dropDiagnosticsUserName db = true →
      dropDiagnosticsUserF db = ⟨db, [Event.hasRunCheck dropDiagnosticsUserName], none⟩ ∧
      outcome (dropDiagnosticsUserF db) = Outcome.skipped) ∧
    outcome (dropRankColumnF (dropRankColumnF db).db) = Outcome.skipped ∧
    outcome (dropDiagnosticsUserF (dropDiagnosticsUserF db).db) = Outcome.skipped := by
  have key1 : ∀ d : DB, hasRun dropRankColumnName d = true →
      dropRankColumnF d = ⟨d, [Event.hasRunCheck dropRankColumnName], none⟩ := by
    intro d h
    simp [dropRankColumnF, h]
  have key2 : ∀ d : DB, hasRun dropDiagnosticsUserName d = true →
      dropDiagnosticsUserF d = ⟨d, [Event.hasRunCheck dropDiagnosticsUserName], none⟩ := by
    intro d h
    simp [dropDiagnosticsUserF, h]
  refine ⟨fun h => ⟨key1 db h, ?_⟩, fun h => ⟨key2 db h, ?_⟩, ?_, ?_⟩
  · rw [key1 db h]
    simp [outcome, isMutationEvent, isSetHasRunEvent]
  · rw [key2 db h]
    simp [outcome, isMutationEvent, isSetHasRunEvent]
  · rw [key1 _ (dropRankColumnF_marks db)]
    simp [outcome, isMutationEvent, isSetHasRunEvent]
  · rw [key2 _ (dropDiagnosticsUserF_marks db)]
    simp [outcome, isMutationEvent, isSetHasRunEvent]

/-- C1 witness at a concrete completed database. -/
theorem execute_skipped_when_completed_witness :
    hasRun dropRankColumnName completedDB = true ∧
    dropRankColumnF completedDB =
      ⟨completedDB, [Event.hasRunCheck dropRankColumnName], none⟩ :=
  ⟨by decide, ((execute_skipped_when_completed completedDB).1 (by decide)).1⟩

/-- C2: when the ledger does not yet record the migration name, execute
writes the name to the ledger before returning (a setHasRun action occurs in
the trace and afterwards hasRun holds), in every branch. -/
theorem execute_marks_completed (db : DB) :
    (hasRun dropRankColumnName db = false →
      Event.setHasRunOp dropRankColumnName ∈ (dropRankColumnF db).trace ∧
      hasRun dropRankColumnName (dropRankColumnF db).db = true) ∧
    (hasRun dropDiagnosticsUserName db = false →
      Event.setHasRunOp dropDiagnosticsUserName ∈ (dropDiagnosticsUserF db).trace ∧
      hasRun dropDiagnosticsUserName (dropDiagnosticsUserF db).db = true) := by
  constructor
  · intro h
    refine ⟨?_, dropRankColumnF_marks db⟩
    unfold dropRankColumnF
    by_cases h2 : hasTable db.schema Entity.leaderboardItem = true
    · by_cases h3 : hasColumn db.schema Entity.leaderboardItem "rank" = true
      · rcases hd : dropColumn db.schema Entity.leaderboardItem "rank" with s | e <;>
          simp [h, h2, h3, hd]
      · simp [h, h2, h3]
    · simp [h, h2]
  · intro h
    refine ⟨?_, dropDiagnosticsUserF_marks db⟩
    unfold dropDiagnosticsUserF
    by_cases h2 : hasColumn db.schema Entity.diagnostics "user_id" = true
    · simp [h, h2]
    · simp [h, h2]

/-- C2 witness at a concrete fresh database. -/
theorem execute_marks_completed_witness :
    hasRun dropRankColumnName freshDB = false ∧
    hasRun dropRankColumnName (dropRankColumnF freshDB).db = true :=
  ⟨by decide, ((execute_marks_completed freshDB).1 (by decide)).2⟩

/-- C5: every migration body returns a nil error on every database state; no
failure of a DDL sub-step or ledger operation is ever propagated. -/
theorem execute_returns_nil (db : DB) :
    (dropRankColumnF db).err = none ∧ (dropDiagnosticsUserF db).err = none := by
  constructor
  · unfold dropRankColumnF
    by_cases h1 : hasRun dropRankColumnName db = true
    · simp [h1]
    · by_cases h2 : hasTable db.schema Entity.leaderboardItem = true
      · by_cases h3 : hasColumn db.schema Entity.leaderboardItem "rank" = true
        · rcases hd : dropColumn db.schema Entity.leaderboardItem "rank" with s | e <;>
            simp [h1, h2, h3, hd]
        · simp [h1, h2, h3]
      · simp [h1, h2]
  · unfold dropDiagnosticsUserF
    by_cases h1 : hasRun dropDiagnosticsUserName db = true
    · simp [h1]
    · by_cases h2 : hasColumn db.schema Entity.diagnostics "user_id" = true <;>
        simp [h1, h2]

/-- C3: in the drop-diagnostics-user migration, with no ledger record, the
user_id column present and the constraint already gone, the constraint-drop
failure is logged as a warning, the column drop is still attempted and
succeeds, and the migration is marked completed. -/
theorem dropDiagnosticsUser_constraint_failure_nonfatal (db : DB)
    (h1 : hasRun dropDiagnosticsUserName db = false)
    (h2 : hasColumn db.schema Entity.diagnostics "user_id" = true)
    (h3 : hasConstraint db.schema Entity.diagnostics "fk_diagnostics_user" = false) :
    Event.logWarn "failed to drop fk_diagnostics_user constraint" ∈
      (dropDiagnosticsUserF db).trace ∧
    Event.dropColumnOp Entity.diagnostics "user_id" ∈ (dropDiagnosticsUserF db).trace ∧
    hasColumn (dropDiagnosticsUserF db).db.schema Entity.diagnostics "user_id" = false ∧
    hasRun dropDiagnosticsUserName (dropDiagnosticsUserF db).db = true := by
  have hd1 : dropConstraint db.schema Entity.diagnostics "fk_diagnostics_user" =
      Except.error "no such constraint" := by
    unfold hasConstraint at h3
    simp at h3
    unfold dropConstraint
    simp [h3]
  have hd2 : dropColumn db.schema Entity.diagnostics "user_id" =
      Except.ok { db.schema with
        columns := db.schema.columns.filter
          (fun p => p ≠ (Entity.diagnostics, "user_id")) } := by
    unfold hasColumn at h2
    simp at h2
    unfold dropColumn
    simp [h2]
  refine ⟨?_, ?_, ?_, dropDiagnosticsUserF_marks db⟩
  · unfold dropDiagnosticsUserF
    simp [h1, h2, hd1, hd2]
  · unfold dropDiagnosticsUserF
    simp [h1, h2, hd1, hd2]
  · unfold dropDiagnosticsUserF
    simp only [h1, h2, hd1, hd2, Bool.false_eq_true, if_false, if_true]
    rw [setHasRun_schema]
    unfold hasColumn
    simp

/-- C3 witness at a concrete database missing only the constraint. -/
theorem dropDiagnosticsUser_constraint_failure_nonfatal_witness :
    Event.logWarn "failed to drop fk_diagnostics_user constraint" ∈
      (dropDiagnosticsUserF noConstraintDB).trace ∧
    hasColumn (dropDiagnosticsUserF noConstraintDB).db.schema
      Entity.diagnostics "user_id" = false :=
  ⟨(dropDiagnosticsUser_constraint_failure_nonfatal noConstraintDB
      (by decide) (by decide) (by decide)).1,
   (dropDiagnosticsUser_constraint_failure_nonfatal noConstraintDB
      (by decide) (by decide) (by decide)).2.2.1⟩

/-- C4: with no ledger record and a false guard, execute mutates nothing —
the schema is unchanged, the resulting state is exactly the ledger mark, the
trace has no mutation action, and the outcome is NoopGuardFalse. -/
theorem execute_noop_when_guard_false (db : DB) :
    (hasRun dropRankColumnName db = false →
      (hasTable db.schema Entity.leaderboardItem &&
        hasColumn db.schema Entity.leaderboardItem "rank") = false →
      (dropRankColumnF db).db.schema = db.schema ∧
      (dropRankColumnF db).db = setHasRun dropRankColumnName db ∧
      (dropRankColumnF db).trace.any isMutationEvent = false ∧
      outcome (dropRankColumnF db) = Outcome.noopGuardFalse) ∧
    (hasRun dropDiagnosticsUserName db = false →
      hasColumn db.schema Entity.diagnostics "user_id" = false →
      (dropDiagnosticsUserF db).db.schema = db.schema ∧
      (dropDiagnosticsUserF db).db = setHasRun dropDiagnosticsUserName db ∧
      (dropDiagnosticsUserF db).trace.any isMutationEvent = false ∧
      outcome (dropDiagnosticsUserF db) = Outcome.noopGuardFalse) := by
  constructor
  · intro h1 hg
    by_cases h2 : hasTable db.schema Entity.leaderboardItem = true
    · have h3 : hasColumn db.schema Entity.leaderboardItem "rank" = false := by
        rcases Bool.and_eq_false_iff.mp hg with h | h
        · exact absurd h2 (by simp [h])
        · exact h
      unfold dropRankColumnF
      simp [h1, h2, h3, setHasRun_schema, outcome, isMutationEvent, isSetHasRunEvent]
    · unfold dropRankColumnF
      simp [h1, h2, setHasRun_schema, outcome, isMutationEvent, isSetHasRunEvent]
  · intro h1 h2
    unfold dropDiagnosticsUserF
    simp [h1, h2, setHasRun_schema, outcome, isMutationEvent, isSetHasRunEvent]

/-- C4 witness at a concrete fresh database. -/
theorem execute_noop_when_guard_false_witness :
    (dropRankColumnF freshDB).db.schema = freshDB.schema ∧
    outcome (dropRankColumnF freshDB) = Outcome.noopGuardFalse :=
  ⟨((execute_noop_when_guard_false freshDB).1 (by decide) (by decide)).1,
   ((execute_noop_when_guard_false freshDB).1 (by decide) (by decide)).2.2.2⟩

/-- C6: whenever the drop-diagnostics-user migration reaches its mutation
step, the mutation actions of the trace are exactly the constraint drop
followed by the column drop — the constraint drop comes strictly first, the
column drop is attempted even when the constraint drop failed, and the column
drop never precedes the constraint drop. -/
theorem dropDiagnosticsUser_constraint_drop_first (db : DB)
    (h1 : hasRun dropDiagnosticsUserName db = false)
    (h2 : hasColumn db.schema Entity.diagnostics "user_id" = true) :
    (dropDiagnosticsUserF db).trace.filter isMutationEvent =
      [Event.dropConstraintOp Entity.diagnostics "fk_diagnostics_user",
       Event.dropColumnOp Entity.diagnostics "user_id"] := by
  unfold dropDiagnosticsUserF
  rcases hd1 : dropConstraint db.schema Entity.diagnostics "fk_diagnostics_user"
    with e1 | s1
  · rcases hd2 : dropColumn db.schema Entity.diagnostics "user_id" with e2 | s2 <;>
      simp [h1, h2, hd1, hd2, isMutationEvent]
  · rcases hd2 : dropColumn s1 Entity.diagnostics "user_id" with e2 | s2 <;>
      simp [h1, h2, hd1, hd2, isMutationEvent]

/-- C6 witness at a concrete legacy database. -/
theorem dropDiagnosticsUser_constraint_drop_first_witness :
    (dropDiagnosticsUserF legacyDB).trace.filter isMutationEvent =
      [Event.dropConstraintOp Entity.diagnostics "fk_diagnostics_user",
       Event.dropColumnOp Entity.diagnostics "user_id"] :=
  dropDiagnosticsUser_constraint_drop_first legacyDB (by decide) (by decide)

/-- C9: the drop-rank-column guard short-circuits — when the leaderboard-item
table does not exist, the column check is never evaluated, no mutation is
attempted, and the migration is still marked completed. -/
theorem dropRankColumn_guard_short_circuit (db : DB)
    (h1 : hasRun dropRankColumnName db = false)
    (h2 : hasTable db.schema Entity.leaderboardItem = false) :
    (dropRankColumnF db).trace =
      [Event.hasRunCheck dropRankColumnName,
       Event.hasTableCheck Entity.leaderboardItem,
       Event.setHasRunOp dropRankColumnName] ∧
    Event.hasColumnCheck Entity.leaderboardItem "rank" ∉ (dropRankColumnF db).trace ∧
    (dropRankColumnF db).trace.any isMutationEvent = false ∧
    (dropRankColumnF db).db = setHasRun dropRankColumnName db ∧
    hasRun dropRankColumnName (dropRankColumnF db).db = true := by
  have key : dropRankColumnF db =
      ⟨setHasRun dropRankColumnName db,
       [Event.hasRunCheck dropRankColumnName,
        Event.hasTableCheck Entity.leaderboardItem,
        Event.setHasRunOp dropRankColumnName], none⟩ := by
    unfold dropRankColumnF
    simp [h1, h2]
  refine ⟨?_, ?_, ?_, ?_, dropRankColumnF_marks db⟩ <;>
    rw [key] <;> simp [isMutationEvent]

/-- C9 witness at a concrete database without the leaderboard-item table. -/
theorem dropRankColumn_guard_short_circuit_witness :
    Event.hasColumnCheck Entity.leaderboardItem "rank" ∉
      (dropRankColumnF noTableDB).trace ∧
    hasRun dropRankColumnName (dropRankColumnF noTableDB).db = true :=
  ⟨(dropRankColumn_guard_short_circuit noTableDB (by decide) (by decide)).2.1,
   (dropRankColumn_guard_short_circuit noTableDB (by decide) (by decide)).2.2.2.2⟩

/-- C10: the drop-diagnostics-user migration never consults constraint
existence — no trace ever contains a constraint-existence check — and when
the ledger is empty and the user_id column exists it unconditionally attempts
the constraint drop, even on databases where the constraint is absent. -/
theorem dropDiagnosticsUser_no_constraint_check (db : DB) :
    (dropDiagnosticsUserF db).trace.any isConstraintCheckEvent = false ∧
    (hasRun dropDiagnosticsUserName db = false →
      hasColumn db.schema Entity.diagnostics "user_id" = true →
      Event.dropConstraintOp Entity.diagnostics "fk_diagnostics_user" ∈
        (dropDiagnosticsUserF db).trace) := by
  constructor
  · unfold dropDiagnosticsUserF
    by_cases h1 : hasRun dropDiagnosticsUserName db = true
    · simp [h1, isConstraintCheckEvent]
    · by_cases h2 : hasColumn db.schema Entity.diagnostics "user_id" = true
      · rcases hd1 : dropConstraint db.schema Entity.diagnostics "fk_diagnostics_user"
          with e1 | s1
        · rcases hd2 : dropColumn db.schema Entity.diagnostics "user_id" with e2 | s2 <;>
            simp [h1, h2, hd1, hd2, isConstraintCheckEvent]
        · rcases hd2 : dropColumn s1 Entity.diagnostics "user_id" with e2 | s2 <;>
            simp [h1, h2, hd1, hd2, isConstraintCheckEvent]
      · simp [h1, h2, isConstraintCheckEvent]
  · intro h1 h2
    unfold dropDiagnosticsUserF
    simp [h1, h2]

/-- C10 witness at a concrete database where the constraint is absent yet the
drop is attempted. -/
theorem dropDiagnosticsUser_no_constraint_check_witness :
    hasConstraint noConstraintDB.schema Entity.diagnostics "fk_diagnostics_user" = false ∧
    Event.dropConstraintOp Entity.diagnostics "fk_diagnostics_user" ∈
      (dropDiagnosticsUserF noConstraintDB).trace :=
  ⟨by decide,
   (dropDiagnosticsUser_no_constraint_check noConstraintDB).2 (by decide) (by decide)⟩

theorem dropDiagnosticsUserF_noop_eq (db : DB)
    (h1 : hasRun dropDiagnosticsUserName db = false)
    (h2 : hasColumn db.schema Entity.diagnostics "user_id" = false) :
    dropDiagnosticsUserF db =
      ⟨setHasRun dropDiagnosticsUserName db,
       [Event.hasRunCheck dropDiagnosticsUserName,
        Event.hasColumnCheck Entity.diagnostics "user_id",
        Event.setHasRunOp dropDiagnosticsUserName], none⟩ := by
  unfold dropDiagnosticsUserF
  simp [h1, h2]

theorem dropRankColumnF_noop_eq (db : DB)
    (h1 : hasRun dropRankColumnName db = false)
    (h2 : hasTable db.schema Entity.leaderboardItem = true)
    (h3 : hasColumn db.schema Entity.leaderboardItem "rank" = false) :
    dropRankColumnF db =
      ⟨setHasRun dropRankColumnName db,
       [Event.hasRunCheck dropRankColumnName,
        Event.hasTableCheck Entity.leaderboardItem,
        Event.hasColumnCheck Entity.leaderboardItem "rank",
        Event.setHasRunOp dropRankColumnName], none⟩ := by
  unfold dropRankColumnF
  simp [h1, h2, h3]

theorem dropRankColumnF_notable_eq (db : DB)
    (h1 : hasRun dropRankColumnName db = false)
    (h2 : hasTable db.schema Entity.leaderboardItem = false) :
    dropRankColumnF db =
      ⟨setHasRun dropRankColumnName db,
       [Event.hasRunCheck dropRankColumnName,
        Event.hasTableCheck Entity.leaderboardItem,
        Event.setHasRunOp dropRankColumnName], none⟩ := by
  unfold dropRankColumnF
  simp [h1, h2]

/-- C7 counterexample: the drop-rank-column migration is not placed in the
pre-phase registry list — its source file calls registerPostMigration, so it
sits in the post-phase list. -/
theorem dropRankColumn_registered_post_not_pre :
    (preMigrations.map migrationFunc.name).contains dropRankColumnName = false ∧
    (postMigrations.map migrationFunc.name).contains dropRankColumnName = true := by
  constructor
  · rfl
  · decide

/-- C7 amended: both example migrations are registered post-phase; on a fresh
database whose synced schema has neither the rank column nor the user_id
column, the Runner completes with no mutation action in the whole trace, the
schema untouched after the additive sync, the ledger containing both names,
and the single sync step strictly between the pre-phase and post-phase
traces. -/
theorem fresh_database_runner (sync : Schema → Schema) (db : DB)
    (h1 : hasRun dropRankColumnName db = false)
    (h2 : hasRun dropDiagnosticsUserName db = false)
    (h3 : hasColumn (sync db.schema) Entity.leaderboardItem "rank" = false)
    (h4 : hasColumn (sync db.schema) Entity.diagnostics "user_id" = false) :
    preMigrations = [] ∧
    postMigrations.map migrationFunc.name =
      [dropDiagnosticsUserName, dropRankColumnName] ∧
    hasRun dropRankColumnName (runMigrations sync db).1 = true ∧
    hasRun dropDiagnosticsUserName (runMigrations sync db).1 = true ∧
    (runMigrations sync db).1.schema = sync db.schema ∧
    (runMigrations sync db).2.any runEventIsMutation = false ∧
    (runMigrations sync db).2 =
      [RunEvent.syncSchemaStep] ++
        (runPhase postMigrations { db with schema := sync db.schema }).2 := by
  have hdist : (dropRankColumnName : String) ≠ dropDiagnosticsUserName := by decide
  have h2d : hasRun dropDiagnosticsUserName { db with schema := sync db.schema } = false :=
    h2
  have h4d : hasColumn ({ db with schema := sync db.schema } : DB).schema
      Entity.diagnostics "user_id" = false := h4
  have e1 := dropDiagnosticsUserF_noop_eq { db with schema := sync db.schema } h2d h4d
  have hr2 : hasRun dropRankColumnName
      (setHasRun dropDiagnosticsUserName { db with schema := sync db.schema }) = false := by
    rw [setHasRun_ledger_other _ _ _ hdist]
    exact h1
  have hs2 : (setHasRun dropDiagnosticsUserName
      { db with schema := sync db.schema }).schema = sync db.schema := by
    rw [setHasRun_schema]
  have h3d : hasColumn (setHasRun dropDiagnosticsUserName
      { db with schema := sync db.schema }).schema Entity.leaderboardItem "rank" = false := by
    rw [hs2]
    exact h3
  refine ⟨rfl, by decide, ?_⟩
  by_cases h5 : hasTable (setHasRun dropDiagnosticsUserName
      { db with schema := sync db.schema }).schema Entity.leaderboardItem = true
  · have e2 := dropRankColumnF_noop_eq _ hr2 h5 h3d
    have key : runMigrations sync db =
        ((setHasRun dropRankColumnName (setHasRun dropDiagnosticsUserName
            { db with schema := sync db.schema })),
         [RunEvent.syncSchemaStep] ++
           (runPhase postMigrations { db with schema := sync db.schema }).2) := by
      unfold runMigrations
      simp only [preMigrations, runPhase, postMigrations,
        dropDiagnosticsUserMigration, dropRankColumnMigration, e1, e2,
        List.nil_append, List.append_nil]
    rw [key]
    refine ⟨hasRun_setHasRun_self _ _, ?_, ?_, ?_, rfl⟩
    · rw [setHasRun_ledger_other _ _ _ (Ne.symm hdist)]
      exact hasRun_setHasRun_self _ _
    · rw [setHasRun_schema, hs2]
    · simp only [runPhase, postMigrations, dropDiagnosticsUserMigration,
        dropRankColumnMigration, e1, e2]
      simp [runEventIsMutation, isMutationEvent]
  · have e2 := dropRankColumnF_notable_eq _ hr2 (by simpa using h5)
    have key : runMigrations sync db =
        ((setHasRun dropRankColumnName (setHasRun dropDiagnosticsUserName
            { db with schema := sync db.schema })),
         [RunEvent.syncSchemaStep] ++
           (runPhase postMigrations { db with schema := sync db.schema }).2) := by
      unfold runMigrations
      simp only [preMigrations, runPhase, postMigrations,
        dropDiagnosticsUserMigration, dropRankColumnMigration, e1, e2,
        List.nil_append, List.append_nil]
    rw [key]
    refine ⟨hasRun_setHasRun_self _ _, ?_, ?_, ?_, rfl⟩
    · rw [setHasRun_ledger_other _ _ _ (Ne.symm hdist)]
      exact hasRun_setHasRun_self _ _
    · rw [setHasRun_schema, hs2]
    · simp only [runPhase, postMigrations, dropDiagnosticsUserMigration,
        dropRankColumnMigration, e1, e2]
      simp [runEventIsMutation, isMutationEvent]

/-- C7 amended witness at a concrete fresh database with the identity sync. -/
theorem fresh_database_runner_witness :
    hasRun dropRankColumnName (runMigrations id freshDB).1 = true ∧
    (runMigrations id freshDB).2.any runEventIsMutation = false :=
  ⟨(fresh_database_runner id freshDB (by decide) (by decide)
      (by decide) (by decide)).2.2.1,
   (fresh_database_runner id freshDB (by decide) (by decide)
      (by decide) (by decide)).2.2.2.2.2.1⟩

/-- C8: the startup gate of main runs the migration pass iff the
SkipMigrations flag is false; with the flag set, nothing runs — the database
is unchanged and no Registry or Ledger action is observed. -/
theorem main_skip_migrations_gate (cfg : Config) (sync : Schema → Schema) (db : DB) :
    (cfg.skipMigrations = true → mainMigrationStep cfg sync db = (db, [])) ∧
    (cfg.skipMigrations = false →
      mainMigrationStep cfg sync db = runMigrations sync db) := by
  constructor <;> intro h <;> simp [mainMigrationStep, h]

/-- C8 witness at concrete configurations. -/
theorem main_skip_migrations_gate_witness :
    mainMigrationStep ⟨true⟩ id freshDB = (freshDB, []) ∧
    mainMigrationStep ⟨false⟩ id freshDB = runMigrations id freshDB :=
  ⟨(main_skip_migrations_gate ⟨true⟩ id freshDB).1 rfl,
   (main_skip_migrations_gate ⟨false⟩ id freshDB).2 rfl⟩

end Wakapi
